import Mathlib

/-!
Verification development for the CSV/Parquet ingestion pipeline
(`src/csv_loader.cpp`, `src/data_loader.cpp`).

Files are modelled as `Option (List (List Char))`: `none` is a source that
cannot be opened, `some lines` the list of lines `std::getline` yields.
`entry_t` (declared in the engine header `pir/database.h`, not part of the
ingestion sources) is modelled from the spec: "Entry: a single unsigned
integer value", so entry arithmetic (shift, subtraction, comparison, modulo)
is exact arithmetic on `Nat`.
-/

/-- The character set `" \t\r\n"` used by the loaders' trimming
(`find_first_not_of`, `find_last_not_of`) and by the line counter. -/
def isTrimChar (c : Char) : Bool :=
  c = ' ' || c = '\t' || c = '\r' || c = '\n'

/-- Predicate `std::isspace` in the default locale, used by `std::stoull` to skip
leading whitespace. -/
def isSpaceChar (c : Char) : Bool :=
  c = ' ' || c = '\t' || c = '\n' || c = '\x0b' || c = '\x0c' || c = '\r'

/-- Decimal digit test, as used by `strtoull` with base 10. -/
def isDigitChar (c : Char) : Bool :=
  '0' ≤ c && c ≤ '9'

/-- Trimming as performed by the loaders:
`cell.erase(0, cell.find_first_not_of(" \t\r\n"))` followed by
`cell.erase(cell.find_last_not_of(" \t\r\n") + 1)`. -/
def trimChars (cs : List Char) : List Char :=
  ((cs.dropWhile isTrimChar).reverse.dropWhile isTrimChar).reverse

/-- Behaviour of `std::getline(ss, cell, ',')` on a non-empty line: the prefix of the
line before the first comma. -/
def firstCell (cs : List Char) : List Char :=
  cs.takeWhile (fun c => c ≠ ',')

/-- Numeric value of a decimal digit character. -/
def digitVal (c : Char) : Nat :=
  c.toNat - '0'.toNat

/-- Value of a digit string, most significant digit first. -/
def digitsToNat (ds : List Char) : Nat :=
  ds.foldl (fun a c => 10 * a + digitVal c) 0

/-- Constant `2^64`; `unsigned long long` and `unsigned long` are 64 bits on the
target platform, so `std::stoull` values and the
`static_cast<unsigned long>` in the loaders live below this bound. -/
def U64 : Nat := 2 ^ 64

/-- Model of `std::stoull(cell)` (base 10): skip leading whitespace, optional sign,
then a non-empty maximal digit run (trailing garbage is ignored).
`none` models a thrown exception: `invalid_argument` when no digits follow
the optional sign, `out_of_range` when the digit value exceeds
`ULLONG_MAX`.  A minus sign negates the value with unsigned wraparound
(per `strtoull` semantics). -/
def stoull (cs : List Char) : Option Nat :=
  let cs := cs.dropWhile isSpaceChar
  let p : Bool × List Char :=
    match cs with
    | '-' :: r => (true, r)
    | '+' :: r => (false, r)
    | r => (false, r)
  let ds := p.2.takeWhile isDigitChar
  if ds.isEmpty then none
  else
    let n := digitsToNat ds
    if n ≥ U64 then none
    else some (if p.1 then (U64 - n) % U64 else n)

/-- Per-line store of `loadDatabaseFromCSV` (csv_loader.cpp:165-197):
first cell before a comma; empty cell (before or after trimming) stores 0;
parse failure stores 0; a parsed value above `2^d - 1` stores `2^d - 1`
(the Boolean component records that this clamp/warning branch ran);
otherwise the value is stored reduced modulo `2^d`. -/
def csvStoreCell (d : Nat) (line : List Char) : Nat × Bool :=
  let modulus := 2 ^ d
  let maxValue := modulus - 1
  let cell := firstCell line
  if cell.isEmpty then (0, false)
  else
    let cell := trimChars cell
    if cell.isEmpty then (0, false)
    else
      match stoull cell with
      | none => (0, false)
      | some value =>
        if value > maxValue then (maxValue, true) else (value % modulus, false)

/-- Result of `loadDatabaseFromCSV`: final buffer contents, the final
`index` counter, the number of times the clamp warning branch ran, and the
function's Boolean return value. -/
structure CSVLoadResult where
  data : List Nat
  index : Nat
  clamps : Nat
  ok : Bool
deriving Repr, DecidableEq

/-- The load loop of `loadDatabaseFromCSV` (csv_loader.cpp:158-200):
while a line remains and `index < N && (maxRows == 0 || index < maxRows)`,
skip empty lines, otherwise store the line's cell value at `index` and
advance.  Returns (data, index, clamps). -/
def loadLoop (d N maxRows : Nat) :
    List (List Char) → Nat → List Nat → Nat → List Nat × Nat × Nat
  | [], index, data, clamps => (data, index, clamps)
  | line :: rest, index, data, clamps =>
    if index < N ∧ (maxRows = 0 ∨ index < maxRows) then
      if line.isEmpty then loadLoop d N maxRows rest index data clamps
      else
        let s := csvStoreCell d line
        loadLoop d N maxRows rest (index + 1) (data.set index s.1)
          (clamps + if s.2 then 1 else 0)
    else (data, index, clamps)

/-- Function `loadDatabaseFromCSV` (csv_loader.cpp:123-210).  `N` and `allocOk`
stand for `db.N` and for the buffer pointer being non-null after the
alloc-if-needed step; a null buffer is modelled as `[]`.  The buffer is
zeroed (`memset`) before the file is opened, so an unopenable file still
leaves a zeroed buffer but returns `false`. -/
def loadDatabaseFromCSV (N : Nat) (allocOk : Bool)
    (file : Option (List (List Char))) (d : Nat) (hasHeader : Bool)
    (maxRows : Nat) : CSVLoadResult :=
  if !allocOk then ⟨[], 0, 0, false⟩
  else
    let data0 := List.replicate N 0
    match file with
    | none => ⟨data0, 0, 0, false⟩
    | some lines =>
      let body := if hasHeader then lines.drop 1 else lines
      let r := loadLoop d N maxRows body 0 data0 0
      ⟨r.1, r.2.1, r.2.2, true⟩

/-- Outcome of `validateColumnForD`, recording which branch produced the
return value: `valid` (returns true), a range-violation error at a 1-based
row with the offending trimmed cell, a non-numeric error likewise, or an
unopenable file (returns false). -/
inductive ValidationOutcome where
  | valid
  | rangeViolation (row : Nat) (cell : List Char)
  | parseFailure (row : Nat) (cell : List Char)
  | openFailure
deriving Repr, DecidableEq

/-- The scan loop of `validateColumnForD` (csv_loader.cpp:76-109): skip
empty lines; take the first cell, trim it; an empty trimmed cell is
skipped; a non-parsing cell fails, a parsed value above `2^d - 1` fails;
`rowCount` advances on every non-empty line. -/
def validateLoop (d : Nat) : List (List Char) → Nat → ValidationOutcome
  | [], _ => .valid
  | line :: rest, rowCount =>
    if line.isEmpty then validateLoop d rest rowCount
    else
      let cell := trimChars (firstCell line)
      if cell.isEmpty then validateLoop d rest (rowCount + 1)
      else
        match stoull cell with
        | none => .parseFailure (rowCount + 1) cell
        | some value =>
          if value > 2 ^ d - 1 then .rangeViolation (rowCount + 1) cell
          else validateLoop d rest (rowCount + 1)

/-- Function `validateColumnForD` with its diagnostic branch made explicit. -/
def validateColumnOutcome (file : Option (List (List Char))) (d : Nat)
    (hasHeader : Bool) : ValidationOutcome :=
  match file with
  | none => .openFailure
  | some lines => validateLoop d (if hasHeader then lines.drop 1 else lines) 0

/-- Function `validateColumnForD` (csv_loader.cpp:58-113): its Boolean return value. -/
def validateColumnForD (file : Option (List (List Char))) (d : Nat)
    (hasHeader : Bool) : Bool :=
  match validateColumnOutcome file d hasHeader with
  | .valid => true
  | _ => false

/-- The counting loop of `countCSVLines` (csv_loader.cpp:34-39): a line is
counted when it is non-empty and `find_first_not_of(" \t\r\n")` finds a
character. -/
def countLoop : List (List Char) → Nat → Nat
  | [], count => count
  | line :: rest, count =>
    countLoop rest
      (if !line.isEmpty && line.any (fun c => !isTrimChar c) then count + 1
       else count)

/-- Function `countCSVLines` (csv_loader.cpp:18-43): unopenable file yields 0;
otherwise skip the header line if requested and count. -/
def countCSVLines (file : Option (List (List Char))) (hasHeader : Bool) :
    Nat :=
  match file with
  | none => 0
  | some lines => countLoop (if hasHeader then lines.drop 1 else lines) 0

/-- The lines a scan sees after the optional header skip. -/
def afterHeader (hasHeader : Bool) (lines : List (List Char)) :
    List (List Char) :=
  if hasHeader then lines.drop 1 else lines

/-- The data rows of a source: lines after the optional header that are
not the empty string (both scan loops skip exactly `line.empty()`). -/
def dataRows (hasHeader : Bool) (lines : List (List Char)) :
    List (List Char) :=
  (afterHeader hasHeader lines).filter (fun l => !l.isEmpty)

/-- The number of rows the load loop is willing to store:
`index < N && (maxRows == 0 || index < maxRows)` holds exactly for
`index < effLimit N maxRows`. -/
def effLimit (N maxRows : Nat) : Nat :=
  if maxRows = 0 then N else min N maxRows

/-- Writing a run of values into a buffer at consecutive positions,
as the loaders' `db.data[index] = v; index++` does. -/
def writeSeq (data : List Nat) (i : Nat) : List Nat → List Nat
  | [] => data
  | x :: xs => writeSeq (data.set i x) (i + 1) xs

/-- A chunk of the Parquet column's physical representation: a run of
optional cells (`none` = null) of one of the two supported physical
types.  Signed 64-bit values lie in `[-2^63, 2^63)`, unsigned ones in
`[0, 2^64)`. -/
inductive ParquetChunk where
  | int64Chunk (cells : List (Option Int))
  | uint64Chunk (cells : List (Option Nat))
deriving Repr, DecidableEq

/-- Store rule of the Parquet loader's INT64 branch
(data_loader.cpp:510-516): null stores 0, otherwise
`entry_t(static_cast<unsigned long>(std::max(0LL, value)))` — the raw
value floored at 0, with no clamp to `2^d - 1` and no modulo. -/
def int64Store (c : Option Int) : Nat :=
  match c with
  | none => 0
  | some v => (max 0 v).toNat

/-- Store rule of the Parquet loader's UINT64 branch
(data_loader.cpp:521-527): null stores 0, otherwise the raw value. -/
def uint64Store (c : Option Nat) : Nat :=
  match c with
  | none => 0
  | some v => v

/-- One inner cell loop of `loadDatabaseFromParquet`
(data_loader.cpp:509-517 and 520-528, identical up to the store rule):
store cells at consecutive indices while `idx < cap`. -/
def parquetInnerLoop {α : Type} (store : α → Nat) (cap : Nat) :
    List α → Nat → List Nat → Nat × List Nat
  | [], idx, data => (idx, data)
  | c :: rest, idx, data =>
    if idx < cap then
      parquetInnerLoop store cap rest (idx + 1) (data.set idx (store c))
    else (idx, data)

/-- The chunk loop of `loadDatabaseFromParquet` (data_loader.cpp:504-530):
while `idx < N`, run the inner cell loop matching the chunk\'s physical
type, then move to the next chunk. -/
def parquetChunkLoop (cap : Nat) :
    List ParquetChunk → Nat → List Nat → Nat × List Nat
  | [], idx, data => (idx, data)
  | .int64Chunk cells :: rest, idx, data =>
    if idx < cap then
      let r := parquetInnerLoop int64Store cap cells idx data
      parquetChunkLoop cap rest r.1 r.2
    else (idx, data)
  | .uint64Chunk cells :: rest, idx, data =>
    if idx < cap then
      let r := parquetInnerLoop uint64Store cap cells idx data
      parquetChunkLoop cap rest r.1 r.2
    else (idx, data)

/-- Row count `table->num_rows()`: total number of cells across the chunks. -/
def parquetNumRows (chunks : List ParquetChunk) : Nat :=
  (chunks.map fun ch =>
    match ch with
    | .int64Chunk cells => cells.length
    | .uint64Chunk cells => cells.length).sum

/-- The bound `N = std::min(table->num_rows(), maxRows > 0 ? maxRows :
UINT64_MAX)` of data_loader.cpp:496. -/
def parquetCap (chunks : List ParquetChunk) (maxRows : Nat) : Nat :=
  min (parquetNumRows chunks) (if maxRows > 0 then maxRows else U64 - 1)

/-- Function `loadDatabaseFromParquet` (data_loader.cpp:464-537).  `init` is the
content of `db.data` when the loop starts: the function performs no
`memset`, so for a freshly `malloc`ed buffer this content is arbitrary.
`none` models an unreadable file (returns false); the bit width `d` is
accepted but never used by any store. -/
def loadDatabaseFromParquet (init : List Nat)
    (file : Option (List ParquetChunk)) (d : Nat) (maxRows : Nat) :
    Option (List Nat) :=
  match file with
  | none => none
  | some chunks =>
    some (parquetChunkLoop (parquetCap chunks maxRows) chunks 0 init).2

/-- The flattened per-cell store values of one chunk. -/
def chunkStores : ParquetChunk → List Nat
  | .int64Chunk cells => cells.map int64Store
  | .uint64Chunk cells => cells.map uint64Store

/-- The values `printCSVStats` reports (csv_loader.cpp:284-330): row
count, maximum allowed value, observed min/max of successfully parsed
first cells (min sentinel `UINT64_MAX`), and the printed size
`(N * d) / (8.0 * (1ULL << 20))` in MiB.  The product `N * d` is a
`uint64_t` multiplication (reduced mod `2^64`); the division by the
power of two `2^23` is exact in double precision, so the printed double
equals this rational whenever `N * d` is below `2^53`. -/
structure CSVStats where
  n : Nat
  maxAllowed : Nat
  minFound : Nat
  maxFound : Nat
  sizeMiB : ℚ

/-- The min/max scan loop of `printCSVStats` (csv_loader.cpp:298-315):
parse failures are skipped, not substituted. -/
def statsMinMaxLoop : List (List Char) → Nat → Nat → Nat × Nat
  | [], mn, mx => (mn, mx)
  | line :: rest, mn, mx =>
    if line.isEmpty then statsMinMaxLoop rest mn mx
    else
      let cell := trimChars (firstCell line)
      if cell.isEmpty then statsMinMaxLoop rest mn mx
      else
        match stoull cell with
        | none => statsMinMaxLoop rest mn mx
        | some v =>
          statsMinMaxLoop rest (if v < mn then v else mn)
            (if v > mx then v else mx)

/-- Function `printCSVStats` (csv_loader.cpp:284-330), modelled as the record of
reported values. -/
def printCSVStats (file : Option (List (List Char))) (d : Nat)
    (hasHeader : Bool) : CSVStats :=
  let n := countCSVLines file hasHeader
  let mm :=
    match file with
    | none => (U64 - 1, 0)
    | some lines =>
      statsMinMaxLoop (if hasHeader then lines.drop 1 else lines) (U64 - 1) 0
  ⟨n, 2 ^ d - 1, mm.1, mm.2, ((n * d) % U64 : Nat) / ((8 : ℚ) * 2 ^ 20)⟩

/-- The per-row store policy exactly as claim C4 words it: the
first-column cell trimmed; empty after trimming stores 0; a cell that
fails integer parsing stores 0; a parsed value above `2^d - 1` stores
exactly `2^d - 1`; a parsed value at most `2^d - 1` stores the value
reduced modulo `2^d`. -/
def claimCellPolicy (d : Nat) (line : List Char) : Nat :=
  let cell := trimChars (firstCell line)
  if cell.isEmpty then 0
  else
    match stoull cell with
    | none => 0
    | some v => if v > 2 ^ d - 1 then 2 ^ d - 1 else v % 2 ^ d

lemma effLimit_guard (N maxRows index : Nat) :
    (index < N ∧ (maxRows = 0 ∨ index < maxRows)) ↔ index < effLimit N maxRows := by
  unfold effLimit
  split <;> omega

lemma countLoop_eq (lines : List (List Char)) (c : Nat) :
    countLoop lines c =
      c + (lines.filter fun l => !l.isEmpty && l.any fun ch => !isTrimChar ch).length := by
  induction lines generalizing c with
  | nil => simp [countLoop]
  | cons l rest ih =>
    by_cases h : (!l.isEmpty && l.any fun ch => !isTrimChar ch) = true
    · simp [countLoop, h, ih, List.filter_cons]
      omega
    · simp [countLoop, h, ih, List.filter_cons]

lemma writeSeq_cons (a : Nat) (data : List Nat) (i : Nat) (xs : List Nat) :
    writeSeq (a :: data) (i + 1) xs = a :: writeSeq data i xs := by
  induction xs generalizing data i with
  | nil => rfl
  | cons x' xs ih =>
    simp only [writeSeq, List.set_cons_succ]
    exact ih (data.set i x') (i + 1)

lemma writeSeq_zero (xs : List Nat) (data : List Nat)
    (h : xs.length ≤ data.length) :
    writeSeq data 0 xs = xs ++ data.drop xs.length := by
  induction xs generalizing data with
  | nil => simp [writeSeq]
  | cons x xs ih =>
    match data with
    | [] => simp at h
    | a :: data =>
      simp only [writeSeq, List.set_cons_zero, List.length_cons]
      rw [show (0 : Nat) + 1 = 0 + 1 from rfl, writeSeq_cons]
      simp only [List.length_cons] at h
      rw [ih data (by omega)]
      simp

lemma writeSeq_append (xs ys : List Nat) (data : List Nat) (i : Nat) :
    writeSeq data i (xs ++ ys) = writeSeq (writeSeq data i xs) (i + xs.length) ys := by
  induction xs generalizing data i with
  | nil => simp [writeSeq]
  | cons x xs ih =>
    show writeSeq (data.set i x) (i + 1) (xs ++ ys)
      = writeSeq (writeSeq (data.set i x) (i + 1) xs) (i + (xs.length + 1)) ys
    rw [ih (data.set i x) (i + 1)]
    congr 1
    omega

lemma loadLoop_eq (d N maxRows : Nat) (lines : List (List Char))
    (index : Nat) (data : List Nat) (clamps : Nat) :
    loadLoop d N maxRows lines index data clamps =
      (writeSeq data index
          (((lines.filter fun l => !l.isEmpty).take (effLimit N maxRows - index)).map
            fun l => (csvStoreCell d l).1),
        index + min (effLimit N maxRows - index)
          (lines.filter fun l => !l.isEmpty).length,
        clamps + (((lines.filter fun l => !l.isEmpty).take
            (effLimit N maxRows - index)).map
            fun l => (csvStoreCell d l).2).count true) := by
  induction lines generalizing index data clamps with
  | nil => simp [loadLoop, writeSeq]
  | cons line rest ih =>
    by_cases hg : index < effLimit N maxRows
    · by_cases he : line.isEmpty
      · rw [loadLoop, if_pos ((effLimit_guard N maxRows index).mpr hg),
          if_pos he, ih]
        simp [List.filter_cons, he]
      · have hsplit : effLimit N maxRows - index
            = (effLimit N maxRows - (index + 1)) + 1 := by omega
        rw [loadLoop, if_pos ((effLimit_guard N maxRows index).mpr hg),
          if_neg he, ih]
        simp only [List.filter_cons, he, Bool.not_false, ite_true,
          hsplit, List.take_succ_cons, List.map_cons, List.length_cons,
          List.count_cons, writeSeq]
        refine Prod.ext rfl (Prod.ext ?_ ?_)
        · simp only []
          omega
        · simp only []
          cases hs : (csvStoreCell d line).2 <;> simp <;> omega
    · have hz : effLimit N maxRows - index = 0 := by omega
      rw [loadLoop, if_neg (fun hc => hg ((effLimit_guard N maxRows index).mp hc))]
      simp [hz, writeSeq]

lemma effLimit_le (N maxRows : Nat) : effLimit N maxRows ≤ N := by
  unfold effLimit
  split <;> omega

lemma load_csv_eq (N : Nat) (lines : List (List Char)) (d : Nat) (hh : Bool)
    (maxRows : Nat) :
    loadDatabaseFromCSV N true (some lines) d hh maxRows =
      ⟨((dataRows hh lines).take (effLimit N maxRows)).map
          (fun l => (csvStoreCell d l).1)
          ++ List.replicate (N - min (effLimit N maxRows) (dataRows hh lines).length) 0,
        min (effLimit N maxRows) (dataRows hh lines).length,
        (((dataRows hh lines).take (effLimit N maxRows)).map
          fun l => (csvStoreCell d l).2).count true,
        true⟩ := by
  have hstep : loadDatabaseFromCSV N true (some lines) d hh maxRows =
      ⟨(loadLoop d N maxRows (afterHeader hh lines) 0 (List.replicate N 0) 0).1,
        (loadLoop d N maxRows (afterHeader hh lines) 0 (List.replicate N 0) 0).2.1,
        (loadLoop d N maxRows (afterHeader hh lines) 0 (List.replicate N 0) 0).2.2,
        true⟩ := rfl
  rw [hstep, loadLoop_eq]
  have hrows : (afterHeader hh lines).filter (fun l => !l.isEmpty)
      = dataRows hh lines := rfl
  simp only [hrows, Nat.sub_zero, Nat.zero_add]
  have hlen : (((dataRows hh lines).take (effLimit N maxRows)).map
      (fun l => (csvStoreCell d l).1)).length ≤ N := by
    simp only [List.length_map, List.length_take]
    exact le_trans (min_le_left _ _) (effLimit_le N maxRows)
  rw [writeSeq_zero _ _ (by simpa using hlen)]
  congr 1
  · rw [List.drop_replicate]
    congr 1
    simp [List.length_take]

lemma trimChars_nil : trimChars [] = [] := rfl

lemma csvStoreCell_snd_eq (d : Nat) (l : List Char) :
    (csvStoreCell d l).2 =
      (!(trimChars (firstCell l)).isEmpty &&
        match stoull (trimChars (firstCell l)) with
        | none => false
        | some v => decide (v > 2 ^ d - 1)) := by
  unfold csvStoreCell
  by_cases h1 : (firstCell l).isEmpty
  · have hnil : firstCell l = [] := by simpa [List.isEmpty_iff] using h1
    simp [h1, hnil, trimChars_nil]
  · simp only [h1, Bool.false_eq_true, if_false]
    by_cases h2 : (trimChars (firstCell l)).isEmpty
    · simp [h2]
    · simp only [h2, Bool.false_eq_true, if_false, Bool.not_false,
        Bool.true_and]
      cases stoull (trimChars (firstCell l)) with
      | none => simp
      | some v => by_cases hv : v > 2 ^ d - 1 <;> simp [hv]

lemma csvStoreCell_fst_lt (d : Nat) (l : List Char) :
    (csvStoreCell d l).1 < 2 ^ d := by
  have hpos : 0 < 2 ^ d := Nat.pos_pow_of_pos d (by omega)
  unfold csvStoreCell
  by_cases h1 : (firstCell l).isEmpty
  · simpa [h1] using hpos
  · simp only [h1, Bool.false_eq_true, if_false]
    by_cases h2 : (trimChars (firstCell l)).isEmpty
    · simpa [h2] using hpos
    · simp only [h2, Bool.false_eq_true, if_false]
      cases stoull (trimChars (firstCell l)) with
      | none => simpa using hpos
      | some v =>
        by_cases hv : v > 2 ^ d - 1
        · simp only [hv, if_true]
          omega
        · simp only [hv, if_false]
          exact Nat.mod_lt _ hpos

lemma claimCellPolicy_eq (d : Nat) (l : List Char) :
    claimCellPolicy d l = (csvStoreCell d l).1 := by
  unfold claimCellPolicy csvStoreCell
  by_cases h1 : (firstCell l).isEmpty
  · have hnil : firstCell l = [] := by simpa [List.isEmpty_iff] using h1
    simp [h1, hnil, trimChars_nil]
  · simp only [h1, Bool.false_eq_true, if_false]
    by_cases h2 : (trimChars (firstCell l)).isEmpty
    · simp [h2]
    · simp only [h2, Bool.false_eq_true, if_false]
      cases stoull (trimChars (firstCell l)) with
      | none => rfl
      | some v => by_cases hv : v > 2 ^ d - 1 <;> simp [hv]

lemma validateLoop_filter (d : Nat) (lines : List (List Char)) (rc : Nat) :
    validateLoop d lines rc
      = validateLoop d (lines.filter fun l => !l.isEmpty) rc := by
  induction lines generalizing rc with
  | nil => rfl
  | cons line rest ih =>
    rw [List.filter_cons]
    by_cases he : line.isEmpty
    · rw [validateLoop, if_pos he]
      simp only [he, Bool.not_true, Bool.false_eq_true, if_false]
      exact ih rc
    · have he' : (!line.isEmpty) = true := by
        simp [Bool.not_eq_true] at he
        simp [he]
      simp only [he', if_true]
      rw [validateLoop, validateLoop, if_neg he, if_neg he]
      by_cases hc : (trimChars (firstCell line)).isEmpty
      · simp only [hc, if_true]
        exact ih (rc + 1)
      · simp only [hc, Bool.false_eq_true, if_false]
        cases stoull (trimChars (firstCell line)) with
        | none => rfl
        | some v =>
          by_cases hv : v > 2 ^ d - 1
          · simp [hv]
          · simp only [hv, if_false]
            exact ih (rc + 1)

lemma validateLoop_valid_store (d : Nat) (lines : List (List Char)) (rc : Nat)
    (h : validateLoop d lines rc = .valid) :
    ∀ l ∈ lines, (csvStoreCell d l).2 = false := by
  induction lines generalizing rc with
  | nil => simp
  | cons line rest ih =>
    intro l hl
    rw [validateLoop] at h
    by_cases he : line.isEmpty
    · rw [if_pos he] at h
      rcases List.mem_cons.mp hl with hle | hlr
      · subst hle
        have hnil : l = [] := by simpa [List.isEmpty_iff] using he
        subst hnil
        rfl
      · exact ih rc h l hlr
    · rw [if_neg he] at h
      by_cases hc : (trimChars (firstCell line)).isEmpty
      · simp only [hc, if_true] at h
        rcases List.mem_cons.mp hl with hle | hlr
        · subst hle
          rw [csvStoreCell_snd_eq, hc]
          rfl
        · exact ih (rc + 1) h l hlr
      · simp only [hc, Bool.false_eq_true, if_false] at h
        cases hs : stoull (trimChars (firstCell line)) with
        | none => rw [hs] at h; exact absurd h (by simp)
        | some v =>
          simp only [hs] at h
          by_cases hv : v > 2 ^ d - 1
          · rw [if_pos hv] at h
            exact absurd h (by simp)
          · rw [if_neg hv] at h
            rcases List.mem_cons.mp hl with hle | hlr
            · subst hle
              rw [csvStoreCell_snd_eq, hs]
              simp [hc, hv]
            · exact ih (rc + 1) h l hlr

lemma parquetInnerLoop_eq {α : Type} (store : α → Nat) (cap : Nat)
    (cells : List α) (idx : Nat) (data : List Nat) :
    parquetInnerLoop store cap cells idx data
      = (idx + min (cap - idx) cells.length,
          writeSeq data idx ((cells.map store).take (cap - idx))) := by
  induction cells generalizing idx data with
  | nil => simp [parquetInnerLoop, writeSeq]
  | cons c rest ih =>
    by_cases hg : idx < cap
    · rw [parquetInnerLoop, if_pos hg, ih]
      have hsplit : cap - idx = (cap - (idx + 1)) + 1 := by omega
      rw [hsplit]
      simp only [List.map_cons, List.take_succ_cons, List.length_cons, writeSeq]
      refine Prod.ext ?_ rfl
      simp only []
      omega
    · rw [parquetInnerLoop, if_neg hg]
      have hz : cap - idx = 0 := by omega
      simp [hz, writeSeq]

lemma flat_chunkStores_length (chunks : List ParquetChunk) :
    (chunks.flatMap chunkStores).length = parquetNumRows chunks := by
  induction chunks with
  | nil => rfl
  | cons ch rest ih =>
    cases ch <;>
      simp [parquetNumRows, chunkStores, List.flatMap_cons, ih] <;>
      simp [parquetNumRows] at ih <;> omega

lemma parquetChunkLoop_eq (cap : Nat) (chunks : List ParquetChunk)
    (idx : Nat) (data : List Nat) :
    parquetChunkLoop cap chunks idx data
      = (idx + min (cap - idx) (chunks.flatMap chunkStores).length,
          writeSeq data idx ((chunks.flatMap chunkStores).take (cap - idx))) := by
  induction chunks generalizing idx data with
  | nil => simp [parquetChunkLoop, writeSeq]
  | cons ch rest ih =>
    have key : ∀ (stores : List Nat),
        stores = chunkStores ch →
        parquetChunkLoop cap rest
            (idx + min (cap - idx) stores.length)
            (writeSeq data idx (stores.take (cap - idx)))
          = (idx + min (cap - idx) ((ch :: rest).flatMap chunkStores).length,
              writeSeq data idx (((ch :: rest).flatMap chunkStores).take (cap - idx))) := by
      intro stores hstores
      rw [ih]
      rw [List.flatMap_cons, ← hstores, List.take_append_eq_append_take,
        writeSeq_append]
      have hlen1 : (stores.take (cap - idx)).length
          = min (cap - idx) stores.length := by
        simp [List.length_take]
      have harg : cap - (idx + min (cap - idx) stores.length)
          = cap - idx - stores.length := by omega
      refine Prod.ext ?_ ?_
      · simp only [List.length_append, List.length_take]
        omega
      · simp only [hlen1, harg]
    by_cases hg : idx < cap
    · cases ch with
      | int64Chunk cells =>
        rw [parquetChunkLoop, if_pos hg, parquetInnerLoop_eq]
        simpa only [List.length_map] using key (cells.map int64Store) rfl
      | uint64Chunk cells =>
        rw [parquetChunkLoop, if_pos hg, parquetInnerLoop_eq]
        simpa only [List.length_map] using key (cells.map uint64Store) rfl
    · have hz : cap - idx = 0 := by omega
      cases ch with
      | int64Chunk cells =>
        rw [parquetChunkLoop, if_neg hg]
        simp [hz, writeSeq]
      | uint64Chunk cells =>
        rw [parquetChunkLoop, if_neg hg]
        simp [hz, writeSeq]

lemma digit_not_trim {c : Char} (h : isDigitChar c = true) :
    isTrimChar c = false := by
  cases htc : isTrimChar c with
  | false => rfl
  | true =>
    simp only [isTrimChar, Bool.or_eq_true, decide_eq_true_eq] at htc
    rcases htc with ((h1 | h1) | h1) | h1 <;> subst h1 <;>
      exact absurd h (by decide)

lemma digit_not_space {c : Char} (h : isDigitChar c = true) :
    isSpaceChar c = false := by
  cases htc : isSpaceChar c with
  | false => rfl
  | true =>
    simp only [isSpaceChar, Bool.or_eq_true, decide_eq_true_eq] at htc
    rcases htc with ((((h1 | h1) | h1) | h1) | h1) | h1 <;> subst h1 <;>
      exact absurd h (by decide)

lemma digit_ne_comma {c : Char} (h : isDigitChar c = true) : c ≠ ',' := by
  intro hc
  subst hc
  exact absurd h (by decide)

lemma dropWhile_cons_head_neg {p : Char → Bool} (c : Char) (cs : List Char)
    (h : p c = false) : (c :: cs).dropWhile p = c :: cs := by
  simp [List.dropWhile_cons, h]

lemma takeWhile_all_pos {p : Char → Bool} (cs : List Char)
    (h : ∀ c ∈ cs, p c = true) : cs.takeWhile p = cs := by
  induction cs with
  | nil => rfl
  | cons c rest ih =>
    rw [List.takeWhile_cons_of_pos (h c (by simp))]
    rw [ih fun x hx => h x (by simp [hx])]

lemma dropWhile_all_neg {p : Char → Bool} (cs : List Char)
    (h : ∀ c ∈ cs, p c = false) : cs.dropWhile p = cs := by
  cases cs with
  | nil => rfl
  | cons c rest => exact dropWhile_cons_head_neg c rest (h c (by simp))

lemma trimChars_all_neg (cs : List Char)
    (h : ∀ c ∈ cs, isTrimChar c = false) : trimChars cs = cs := by
  unfold trimChars
  rw [dropWhile_all_neg cs h]
  rw [dropWhile_all_neg cs.reverse fun c hc => h c (List.mem_reverse.mp hc)]
  exact List.reverse_reverse cs

lemma firstCell_neg_digits (ds : List Char)
    (hdig : ∀ c ∈ ds, isDigitChar c = true) :
    firstCell ('-' :: ds) = '-' :: ds := by
  unfold firstCell
  apply takeWhile_all_pos
  intro c hc
  rcases List.mem_cons.mp hc with h1 | h1
  · subst h1; decide
  · simpa using digit_ne_comma (hdig c h1)

lemma trimChars_neg_digits (ds : List Char)
    (hdig : ∀ c ∈ ds, isDigitChar c = true) :
    trimChars ('-' :: ds) = '-' :: ds := by
  apply trimChars_all_neg
  intro c hc
  rcases List.mem_cons.mp hc with h1 | h1
  · subst h1; decide
  · exact digit_not_trim (hdig c h1)

lemma stoull_neg_digits (ds : List Char) (hne : ds ≠ [])
    (hdig : ∀ c ∈ ds, isDigitChar c = true) (hlt : digitsToNat ds < U64) :
    stoull ('-' :: ds) = some ((U64 - digitsToNat ds) % U64) := by
  unfold stoull
  rw [dropWhile_cons_head_neg '-' ds (by decide)]
  simp only []
  rw [takeWhile_all_pos ds hdig]
  rw [if_neg (by simpa [List.isEmpty_iff] using hne)]
  rw [if_neg (by omega)]
  simp

/-- Claim C5: for every delimited-text source and header flag,
`countCSVLines` returns exactly the number of lines after the optional
header that contain at least one non-whitespace character; a line of only
whitespace is not counted, and with the header flag set the first line is
discarded unconditionally (`List.drop 1`, which on a header-only or empty
source leaves nothing to count). -/
theorem claim_C5 (lines : List (List Char)) (hasHeader : Bool) :
    countCSVLines (some lines) hasHeader
      = ((afterHeader hasHeader lines).filter
          (fun l => l.any fun c => !isTrimChar c)).length := by
  unfold countCSVLines afterHeader
  simp only []
  rw [countLoop_eq]
  simp only [Nat.zero_add]
  congr 1
  apply List.filter_congr
  intro l _
  cases l <;> simp

/-- Claim C6: `validateColumnForD` and `loadDatabaseFromCSV` process
exactly the same data rows: both reduce to the same `dataRows` list
(optional header dropped, exactly the empty-string lines skipped), the
validator scanning it in order and the loader storing, for the k-th data
row, the k-th cell value of that same list (up to its `N`/row-cap
limit `effLimit`). -/
theorem claim_C6 (lines : List (List Char)) (d : Nat) (hh : Bool)
    (N maxRows : Nat) :
    validateColumnOutcome (some lines) d hh
      = validateLoop d (dataRows hh lines) 0
    ∧ (loadDatabaseFromCSV N true (some lines) d hh maxRows).data
      = ((dataRows hh lines).take (effLimit N maxRows)).map
          (fun l => (csvStoreCell d l).1)
        ++ List.replicate
            (N - min (effLimit N maxRows) (dataRows hh lines).length) 0 := by
  constructor
  · show validateLoop d (if hh then lines.drop 1 else lines) 0 = _
    rw [validateLoop_filter]
    rfl
  · rw [load_csv_eq]

/-- Claim C7 counterexample: an unopenable source is not a
destination-buffer allocation failure (allocation succeeded here), yet
`loadDatabaseFromCSV` returns failure for it, contradicting the claim
that failure is returned only for allocation failure. -/
theorem claim_C7_counterexample :
    (loadDatabaseFromCSV 1 true none 2 false 0).ok = false := by
  rfl

/-- Claim C7 as amended: `loadDatabaseFromCSV` returns failure exactly
when the buffer is unavailable after the alloc-if-needed step or the
source cannot be opened; for every readable source, including one with
fewer rows than the buffer length, it returns success. -/
theorem claim_C7_amended (N : Nat) (allocOk : Bool)
    (file : Option (List (List Char))) (d : Nat) (hh : Bool)
    (maxRows : Nat) :
    (loadDatabaseFromCSV N allocOk file d hh maxRows).ok
      = (allocOk && file.isSome) := by
  cases allocOk <;> cases file <;> rfl

/-- Claim C9: a concrete source whose second data line is a single space:
`countCSVLines` does not count it, but `loadDatabaseFromCSV` consumes a
buffer slot for it (storing 0), so with the buffer length equal to the
counted rows (2) the final counted row "2" is never stored. -/
theorem claim_C9 :
    countCSVLines (some [['1'], [' '], ['2']]) false = 2
    ∧ (loadDatabaseFromCSV 2 true (some [['1'], [' '], ['2']]) 2 false 0).data
      = [1, 0]
    ∧ ¬ (2 ∈ (loadDatabaseFromCSV 2 true
        (some [['1'], [' '], ['2']]) 2 false 0).data) := by
  decide

/-- Claim C3: if `validateColumnForD` returns true for a source, bit
width and header flag, then `loadDatabaseFromCSV` on the same source,
bit width and header flag (any buffer length, row cap and allocation
state) never executes its clamp branch. -/
theorem claim_C3 (lines : List (List Char)) (d : Nat) (hh : Bool)
    (N maxRows : Nat) (allocOk : Bool)
    (h : validateColumnForD (some lines) d hh = true) :
    (loadDatabaseFromCSV N allocOk (some lines) d hh maxRows).clamps = 0 := by
  have ho : validateColumnOutcome (some lines) d hh = .valid := by
    revert h
    unfold validateColumnForD
    cases validateColumnOutcome (some lines) d hh <;> simp
  have hvalid : validateLoop d (dataRows hh lines) 0 = .valid := by
    unfold dataRows
    rw [← validateLoop_filter]
    exact ho
  have hstore := validateLoop_valid_store d (dataRows hh lines) 0 hvalid
  cases allocOk with
  | false => rfl
  | true =>
    rw [load_csv_eq]
    show (((dataRows hh lines).take (effLimit N maxRows)).map
        fun l => (csvStoreCell d l).2).count true = 0
    rw [List.count_eq_zero]
    intro hmem
    rcases List.mem_map.mp hmem with ⟨l, hl, hflag⟩
    rw [hstore l (List.take_subset _ _ hl)] at hflag
    exact absurd hflag (by simp)

/-- Witness for C3 at a concrete valid source. -/
theorem claim_C3_witness :
    validateColumnForD (some [['1'], ['2']]) 2 false = true
    ∧ (loadDatabaseFromCSV 2 true (some [['1'], ['2']]) 2 false 0).clamps
      = 0 :=
  ⟨by decide, claim_C3 [['1'], ['2']] 2 false 2 0 true (by decide)⟩

/-- Claim C4: for every data row the loader stores, the stored entry
follows the claimed per-row policy (`claimCellPolicy`: trimmed empty
cell → 0, parse failure → 0, value above `2^d - 1` → `2^d - 1`, value
at most `2^d - 1` → value mod `2^d`), and no per-row condition makes the
call fail (it returns success). -/
theorem claim_C4 (lines : List (List Char)) (d : Nat) (hh : Bool)
    (maxRows N i : Nat) (h1 : i < effLimit N maxRows)
    (h2 : i < (dataRows hh lines).length) :
    (loadDatabaseFromCSV N true (some lines) d hh maxRows).ok = true
    ∧ (loadDatabaseFromCSV N true (some lines) d hh maxRows).data.get? i
      = some (claimCellPolicy d ((dataRows hh lines).get ⟨i, h2⟩)) := by
  rw [load_csv_eq]
  refine ⟨rfl, ?_⟩
  show ((((dataRows hh lines).take (effLimit N maxRows)).map
      fun l => (csvStoreCell d l).1) ++ _).get? i = _
  have hlen : i < (((dataRows hh lines).take (effLimit N maxRows)).map
      fun l => (csvStoreCell d l).1).length := by
    simp only [List.length_map, List.length_take]
    omega
  rw [List.get?_append hlen, List.get?_map, List.get?_take h1,
    List.get?_eq_get h2]
  simp [claimCellPolicy_eq]

/-- Witness for C4 at a concrete source and row. -/
theorem claim_C4_witness :
    (loadDatabaseFromCSV 1 true (some [['1']]) 2 false 0).ok = true
    ∧ (loadDatabaseFromCSV 1 true (some [['1']]) 2 false 0).data.get? 0
      = some (claimCellPolicy 2 ((dataRows false [['1']]).get
          ⟨0, by decide⟩)) :=
  claim_C4 [['1']] 2 false 0 1 0 (by decide) (by decide)

/-- Claim C1 counterexample: the claim quantifies over both loading
passes, but `loadDatabaseFromParquet` stores the raw cell value: for a
UINT64 cell 10 and bit width 2 the stored entry is 10, which is not
below `2^2`. -/
theorem claim_C1_counterexample :
    loadDatabaseFromParquet [0]
        (some [ParquetChunk.uint64Chunk [some 10]]) 2 0 = some [10]
    ∧ ¬ ((10 : Nat) < 2 ^ 2) := by
  decide

/-- Claim C1 as amended: for the delimited-text loader
`loadDatabaseFromCSV` the claim holds — every entry of the destination
buffer is below `2^d`, and every slot at or past the final row index
(not overwritten by a source row) still holds 0.  The columnar-binary
loader does not obey the bound (see the counterexample). -/
theorem claim_C1_amended (lines : List (List Char)) (d : Nat) (hh : Bool)
    (maxRows N : Nat) :
    (∀ v ∈ (loadDatabaseFromCSV N true (some lines) d hh maxRows).data,
        v < 2 ^ d)
    ∧ (∀ i, (loadDatabaseFromCSV N true (some lines) d hh maxRows).index ≤ i →
        i < N →
        (loadDatabaseFromCSV N true (some lines) d hh maxRows).data.get? i
          = some 0) := by
  rw [load_csv_eq]
  constructor
  · intro v hv
    show v < 2 ^ d
    rcases List.mem_append.mp hv with hm | hm
    · rcases List.mem_map.mp hm with ⟨l, _, rfl⟩
      exact csvStoreCell_fst_lt d l
    · rw [List.eq_of_mem_replicate hm]
      exact Nat.pos_pow_of_pos d (by omega)
  · intro i hle hlt
    show ((((dataRows hh lines).take (effLimit N maxRows)).map
        fun l => (csvStoreCell d l).1) ++ _).get? i = _
    have hslen : (((dataRows hh lines).take (effLimit N maxRows)).map
        fun l => (csvStoreCell d l).1).length
        = min (effLimit N maxRows) (dataRows hh lines).length := by
      simp [List.length_take]
    have hle' : min (effLimit N maxRows) (dataRows hh lines).length ≤ i := hle
    rw [List.get?_append_right (by omega : (((dataRows hh lines).take
        (effLimit N maxRows)).map fun l => (csvStoreCell d l).1).length ≤ i)]
    rw [hslen]
    rw [List.get?_eq_get (by simp only [List.length_replicate]; omega)]
    simp

/-- Witness for the amended C1 at a concrete source: a stored entry is
in range and an untouched slot is still 0. -/
theorem claim_C1_witness :
    (1 : Nat) < 2 ^ 2
    ∧ (loadDatabaseFromCSV 3 true (some [['1']]) 2 false 0).data.get? 2
      = some 0 :=
  ⟨(claim_C1_amended [['1']] 2 false 0 3).1 1 (by decide),
    (claim_C1_amended [['1']] 2 false 0 3).2 2 (by decide) (by decide)⟩

/-- Claim C2 counterexample: the Parquet loader does not apply the text
loader's store rules: for an INT64 cell 9 and bit width 1 the stored
entry is the raw 9, neither the clamp value `2^1 - 1` nor `9 mod 2^1`. -/
theorem claim_C2_counterexample :
    loadDatabaseFromParquet [0]
        (some [ParquetChunk.int64Chunk [some 9]]) 1 0 = some [9]
    ∧ (9 : Nat) > 2 ^ 1 - 1
    ∧ loadDatabaseFromParquet [0]
        (some [ParquetChunk.int64Chunk [some 9]]) 1 0 ≠ some [2 ^ 1 - 1]
    ∧ loadDatabaseFromParquet [0]
        (some [ParquetChunk.int64Chunk [some 9]]) 1 0 ≠ some [9 % 2 ^ 1] := by
  decide

/-- Claim C2 as amended: per chunk of the column, `loadDatabaseFromParquet`
stores — in order, up to its row bound — `chunkStores`: 0 for a null
cell (as the text loader does for an empty cell), the value floored at 0
for a signed cell, and the raw value for an unsigned cell, with no clamp
to `2^d - 1` and no modulo reduction; slots past the bound keep the
buffer's prior (uninitialized) content. -/
theorem claim_C2_amended (chunks : List ParquetChunk) (init : List Nat)
    (d maxRows : Nat) (h : parquetNumRows chunks ≤ init.length) :
    loadDatabaseFromParquet init (some chunks) d maxRows
      = some ((chunks.flatMap chunkStores).take (parquetCap chunks maxRows)
          ++ init.drop (parquetCap chunks maxRows)) := by
  unfold loadDatabaseFromParquet
  simp only []
  rw [parquetChunkLoop_eq]
  simp only [Nat.sub_zero]
  have hcap : parquetCap chunks maxRows ≤ parquetNumRows chunks :=
    min_le_left _ _
  have hlen : ((chunks.flatMap chunkStores).take
      (parquetCap chunks maxRows)).length = parquetCap chunks maxRows := by
    simp only [List.length_take, flat_chunkStores_length]
    omega
  rw [writeSeq_zero _ _ (by rw [hlen]; omega)]
  rw [hlen]

/-- Witness for the amended C2 at a concrete chunk list. -/
theorem claim_C2_witness :
    parquetNumRows [ParquetChunk.int64Chunk [some 5, none]]
      ≤ [7, 7].length
    ∧ loadDatabaseFromParquet [7, 7]
        (some [ParquetChunk.int64Chunk [some 5, none]]) 3 0
      = some (([ParquetChunk.int64Chunk [some 5, none]].flatMap
            chunkStores).take
            (parquetCap [ParquetChunk.int64Chunk [some 5, none]] 0)
          ++ [7, 7].drop
            (parquetCap [ParquetChunk.int64Chunk [some 5, none]] 0)) :=
  ⟨by decide,
    claim_C2_amended [ParquetChunk.int64Chunk [some 5, none]] [7, 7] 3 0
      (by decide)⟩

/-- Claim C8 counterexample: the reported storage size is the exact
quantity `(N * d) / (8 * 2^20)` MiB (a power-of-two division, exact in
double precision at these operands), not `N * d / 8` bytes rounded down:
at N = 1, d = 1 the reported size converted to bytes is 1/8, while the
claimed rounded-down byte count is 0. -/
theorem claim_C8_counterexample :
    (printCSVStats (some [['1']]) 1 false).sizeMiB * 2 ^ 20
      ≠ (((1 * 1) / 8 : Nat) : ℚ) := by
  have hn : countCSVLines (some [['1']]) false = 1 := by decide
  have hs : (printCSVStats (some [['1']]) 1 false).sizeMiB
      = (((countCSVLines (some [['1']]) false * 1) % U64 : Nat) : ℚ)
        / (8 * 2 ^ 20) := rfl
  rw [hs, hn]
  norm_num [U64]

/-- Claim C8 as amended: the size `printCSVStats` reports, converted
from MiB to bytes, is the exact rational `N * d / 8` with no rounding
(the hypothesis keeps `N * d` below `2^53`, where the floating-point
evaluation in the source is exact). -/
theorem claim_C8_amended (file : Option (List (List Char))) (d : Nat)
    (hh : Bool) (h : (printCSVStats file d hh).n * d < 2 ^ 53) :
    (printCSVStats file d hh).sizeMiB * 2 ^ 20
      = (((printCSVStats file d hh).n * d : Nat) : ℚ) / 8 := by
  have hn : (printCSVStats file d hh).n = countCSVLines file hh := rfl
  have hs : (printCSVStats file d hh).sizeMiB
      = (((countCSVLines file hh * d) % U64 : Nat) : ℚ) / (8 * 2 ^ 20) := rfl
  rw [hn] at h ⊢
  rw [hs]
  have hlt : countCSVLines file hh * d < U64 := by
    have : (2 : Nat) ^ 53 < 2 ^ 64 := by norm_num
    unfold U64
    omega
  rw [Nat.mod_eq_of_lt hlt]
  have h8 : (8 : ℚ) ≠ 0 := by norm_num
  have h20 : ((2 : ℚ)) ^ 20 ≠ 0 := by norm_num
  field_simp
  ring

/-- Witness for the amended C8 at a concrete source. -/
theorem claim_C8_witness :
    (printCSVStats (some [['1']]) 1 false).n * 1 < 2 ^ 53
    ∧ (printCSVStats (some [['1']]) 1 false).sizeMiB * 2 ^ 20
      = (((printCSVStats (some [['1']]) 1 false).n * 1 : Nat) : ℚ) / 8 :=
  ⟨by decide, claim_C8_amended (some [['1']]) 1 false (by decide)⟩

/-- Claim C10 counterexample: `-18446744073709551615` is a negative
decimal literal and d = 2 < 64, but `std::stoull` wraps it to 1, which
is in range: `validateColumnForD` accepts the source (it does not reject
it as over-range) and `loadDatabaseFromCSV` stores 1, not the clamp
value `2^2 - 1` and not the parse-failure substitute 0. -/
theorem claim_C10_counterexample :
    stoull ['-', '1', '8', '4', '4', '6', '7', '4', '4', '0', '7', '3',
        '7', '0', '9', '5', '5', '1', '6', '1', '5'] = some 1
    ∧ validateColumnForD (some [['-', '1', '8', '4', '4', '6', '7', '4',
        '4', '0', '7', '3', '7', '0', '9', '5', '5', '1', '6', '1', '5']])
        2 false = true
    ∧ (loadDatabaseFromCSV 1 true (some [['-', '1', '8', '4', '4', '6',
        '7', '4', '4', '0', '7', '3', '7', '0', '9', '5', '5', '1', '6',
        '1', '5']]) 2 false 0).data = [1] := by
  decide

/-- Claim C10 as amended: for a cell that is a negative decimal literal
`-n` whose wrapped value `2^64 - n` exceeds `2^d - 1` (that is,
`1 ≤ n` and `n + 2^d ≤ 2^64` — which holds for every small-magnitude
literal such as `-1`), the literal is not a parse failure: `std::stoull`
wraps it to `2^64 - n`, `validateColumnForD` rejects it through its
range-violation branch (not the non-numeric branch), and
`loadDatabaseFromCSV` stores the clamp value `2^d - 1` rather than 0.
Literals of larger magnitude wrap back into range (see the
counterexample). -/
theorem claim_C10_amended (d : Nat) (ds : List Char) (n : Nat)
    (hd : d < 64) (hne : ds ≠ [])
    (hdig : ∀ c ∈ ds, isDigitChar c = true)
    (hn : digitsToNat ds = n) (h1 : 1 ≤ n) (h2 : n + 2 ^ d ≤ U64) :
    stoull ('-' :: ds) = some (U64 - n)
    ∧ validateColumnOutcome (some [('-' :: ds)]) d false
        = ValidationOutcome.rangeViolation 1 ('-' :: ds)
    ∧ (loadDatabaseFromCSV 1 true (some [('-' :: ds)]) d false 0).data
        = [2 ^ d - 1] := by
  subst hn
  have hp : 0 < 2 ^ d := Nat.pos_pow_of_pos d (by omega)
  have hlt : digitsToNat ds < U64 := by omega
  have hst : stoull ('-' :: ds) = some (U64 - digitsToNat ds) := by
    rw [stoull_neg_digits ds hne hdig hlt, Nat.mod_eq_of_lt (by omega)]
  have hgt : U64 - digitsToNat ds > 2 ^ d - 1 := by omega
  have hcell : csvStoreCell d ('-' :: ds) = (2 ^ d - 1, true) := by
    unfold csvStoreCell
    simp only [firstCell_neg_digits ds hdig, trimChars_neg_digits ds hdig,
      hst, List.isEmpty_cons, Bool.false_eq_true, if_false]
    rw [if_pos hgt]
  have hval : validateColumnOutcome (some [('-' :: ds)]) d false
      = ValidationOutcome.rangeViolation 1 ('-' :: ds) := by
    show validateLoop d [('-' :: ds)] 0 = _
    rw [validateLoop]
    simp only [firstCell_neg_digits ds hdig, trimChars_neg_digits ds hdig,
      hst, List.isEmpty_cons, Bool.false_eq_true, if_false]
    rw [if_pos hgt]
  have hload : (loadDatabaseFromCSV 1 true (some [('-' :: ds)])
      d false 0).data = [2 ^ d - 1] := by
    rw [load_csv_eq]
    have hdr : dataRows false [('-' :: ds)] = [('-' :: ds)] := by
      simp [dataRows, afterHeader]
    show (((dataRows false [('-' :: ds)]).take (effLimit 1 0)).map
        fun l => (csvStoreCell d l).1)
        ++ List.replicate
          (1 - min (effLimit 1 0) (dataRows false [('-' :: ds)]).length) 0
        = [2 ^ d - 1]
    rw [hdr]
    have heff : effLimit 1 0 = 1 := rfl
    rw [heff]
    simp [hcell]
  exact ⟨hst, hval, hload⟩

/-- Witness for the amended C10 at the literal `-1` with d = 2. -/
theorem claim_C10_witness :
    stoull ['-', '1'] = some (U64 - 1)
    ∧ validateColumnOutcome (some [['-', '1']]) 2 false
        = ValidationOutcome.rangeViolation 1 ['-', '1']
    ∧ (loadDatabaseFromCSV 1 true (some [['-', '1']]) 2 false 0).data
        = [2 ^ 2 - 1] :=
  claim_C10_amended 2 ['1'] 1 (by decide) (by decide) (by decide)
    (by decide) (by decide) (by decide)
